import Mathlib

/-!
Verification of `src/utils/fd_securities/enrich_company_info.py`: a shallow
embedding of the adaptive rate-limited enrichment engine (RateBudget,
retrying fetchers, per-row enrichment worker, and the dispatcher/aggregator
in `main`), with theorems settling the claims of the specification.

Modelling conventions:
  * Python dict values read with `.get(k) or default` become `Option String`
    fields combined with `pyOrStr`.
  * The network is an oracle `net : Nat → Attempt` giving the outcome of the
    HTTP request issued at loop iteration `attempt`.
  * Side effects relevant to the claims (slot acquire/release, `_on_429`,
    backoff sleeps, the HTTP requests themselves, and entry into the two
    fetch helpers) are recorded as an event trace `List Ev`.
  * The shared `_concurrency` dict is a state machine `BudgetState` with a
    step relation mirroring `_acquire_slot`, `_release_slot` and `_on_429`.
-/

namespace EnrichCompanyInfo

/-- Python `opt.get(k) or default` for string-valued fields: `None` and the
empty string are falsy. -/
def pyOrStr : Option String → String → String
  | none, d => d
  | some s, d => if s = "" then d else s

/-- Python `s.strip()`: drop leading and trailing whitespace. -/
def pyStrip (s : String) : String :=
  String.mk (((s.data.dropWhile Char.isWhitespace).reverse.dropWhile
    Char.isWhitespace).reverse)

/-- Python `s.upper()`. -/
def pyUpper (s : String) : String := String.mk (s.data.map Char.toUpper)

/-- Python `c in s` for a single character. -/
def hasChar (s : String) (c : Char) : Bool := s.data.contains c

/-- The JSON payload of a company-information response, restricted to the
fields the script reads.  A `some` payload models a truthy (non-empty) dict;
absent keys are `none`. -/
structure Info where
  isin_number : Option String := none
  ISIN : Option String := none
  trading_exchange : Option String := none
  exchange : Option String := none
deriving Repr, DecidableEq

def infoEmpty : Info := {}

/-- Table `INTL_EXCHANGE_MAP` from the script: full API exchange names and ticker
suffixes to `(dim_exchanges_name, country, currency)`. -/
def INTL_EXCHANGE_MAP : List (String × (String × String × String)) :=
  [ ("London Stock Exchange",          ("LSE",  "UK",          "GBP")),
    ("Toronto Stock Exchange",         ("TO",   "Canada",      "CAD")),
    ("TSX Venture Exchange",           ("V",    "Canada",      "CAD")),
    ("Frankfurt Stock Exchange",       ("F",    "Germany",     "EUR")),
    ("XETRA",                          ("XETRA","Germany",     "EUR")),
    ("Euronext Paris",                 ("PA",   "France",      "EUR")),
    ("Euronext Amsterdam",             ("AS",   "Netherlands", "EUR")),
    ("Tokyo Stock Exchange",           ("T",    "Japan",       "JPY")),
    ("Hong Kong Stock Exchange",       ("HK",   "Hong Kong",   "HKD")),
    ("Singapore Exchange",             ("SI",   "Singapore",   "SGD")),
    ("Indonesia Stock Exchange",       ("JK",   "Indonesia",   "IDR")),
    ("Bursa Malaysia",                 ("KLSE", "Malaysia",    "MYR")),
    ("Korea Exchange",                 ("KO",   "Korea",       "KRW")),
    ("Korea KOSDAQ",                   ("KQ",   "Korea",       "KRW")),
    ("B3 Brasil Bolsa Balcao",         ("SA",   "Brazil",      "BRL")),
    ("Bolsa Mexicana de Valores",      ("MX",   "Mexico",      "MXN")),
    ("National Stock Exchange India",  ("NS",   "India",       "INR")),
    ("Bombay Stock Exchange",          ("BO",   "India",       "INR")),
    ("Shanghai Stock Exchange",        ("SHG",  "China",       "CNY")),
    ("Shenzhen Stock Exchange",        ("SHE",  "China",       "CNY")),
    ("L",   ("LSE",  "UK",          "GBP")),
    ("TO",  ("TO",   "Canada",      "CAD")),
    ("V",   ("V",    "Canada",      "CAD")),
    ("F",   ("F",    "Germany",     "EUR")),
    ("DE",  ("XETRA","Germany",     "EUR")),
    ("PA",  ("PA",   "France",      "EUR")),
    ("AS",  ("AS",   "Netherlands", "EUR")),
    ("T",   ("T",    "Japan",       "JPY")),
    ("HK",  ("HK",   "Hong Kong",   "HKD")),
    ("SI",  ("SI",   "Singapore",   "SGD")),
    ("JK",  ("JK",   "Indonesia",   "IDR")),
    ("KL",  ("KLSE", "Malaysia",    "MYR")),
    ("KS",  ("KO",   "Korea",       "KRW")),
    ("KQ",  ("KQ",   "Korea",       "KRW")),
    ("SA",  ("SA",   "Brazil",      "BRL")),
    ("MX",  ("MX",   "Mexico",      "MXN")),
    ("NS",  ("NS",   "India",       "INR")),
    ("BO",  ("BO",   "India",       "INR")),
    ("SS",  ("SHG",  "China",       "CNY")),
    ("SZ",  ("SHE",  "China",       "CNY")) ]

/-- Table `DOMESTIC_EXCHANGE_MAP` from the script. -/
def DOMESTIC_EXCHANGE_MAP : List (String × String) :=
  [ ("NAS", "NASDAQ"), ("OTC", "OTCMKTS") ]

/-- Python `ticker.rsplit(".", 1)[-1]`: the part after the last dot. -/
def afterLastDot (s : String) : String :=
  String.mk ((s.data.reverse.takeWhile (fun c => c ≠ '.')).reverse)

/-- Python `ticker.rsplit(".", 1)[0]` when `"." in ticker`: the part
before the last dot. -/
def beforeLastDot (s : String) : String :=
  String.mk (((s.data.reverse.dropWhile (fun c => c ≠ '.')).drop 1).reverse)

/-- Function `extract_isin_and_exchange(info, international)`. -/
def extract_isin_and_exchange (info : Info) (international : Bool) :
    String × String :=
  if international then
    (pyStrip (pyOrStr info.isin_number ""), pyStrip (pyOrStr info.exchange ""))
  else
    (pyStrip (pyOrStr info.isin_number (pyOrStr info.ISIN "")),
     pyStrip (pyOrStr info.trading_exchange (pyOrStr info.exchange "")))

/-- Function `resolve_intl_exchange(api_exchange, ticker)`: full API name first, then
the upper-cased ticker suffix; `none` if unrecognized. -/
def resolve_intl_exchange (api_exchange ticker : String) :
    Option (String × String × String) :=
  match (if api_exchange ≠ "" then INTL_EXCHANGE_MAP.lookup api_exchange
         else none) with
  | some v => some v
  | none =>
    if hasChar ticker '.' then
      INTL_EXCHANGE_MAP.lookup (pyUpper (afterLastDot ticker))
    else
      none

/-- Observable events of a run, in program order. -/
inductive Ev where
  | acquire                                    -- `_acquire_slot()` returns
  | release                                    -- `_release_slot()`
  | rate429 (ticker : String)                  -- `_on_429(ticker)`
  | sleep (secs : Nat)                         -- `time.sleep(secs)`
  | request (endpoint : String) (identifier : String)  -- `urlopen(url)`
  | callPrimary (identifier : String)          -- entry into `fetch_info`
  | callFallback (identifier : String)         -- entry into `fetch_isin_fallback`
deriving Repr, DecidableEq

/-- Outcome of one HTTP request, as classified by the script handlers.
`ok none` models an HTTP 200 whose body is an empty JSON list (or an empty
dict after unwrapping); `ok (some info)` a truthy payload. -/
inductive Attempt where
  | ok (payload : Option Info)  -- status 200, parsed body
  | badStatus                   -- status ≠ 200 inside the `with` block
  | httpError (code : Nat)      -- urllib.error.HTTPError with this code
  | urlError                    -- urllib.error.URLError (incl. timeout)

def is429 : Attempt → Bool
  | .httpError code => code == 429
  | _ => false

def endpointFor (international : Bool) : String :=
  if international then "/international-company-information"
  else "/company-information"

/-- The `for attempt in range(4)` loop of `fetch_info`, from loop index
`attempt` with `rem` iterations left.  Returns the event trace and the
parsed payload (`none` on any failure path). -/
def fetchInfoFrom (ticker : String) (international : Bool)
    (net : Nat → Attempt) : Nat → Nat → List Ev × Option Info
  | _, 0 => ([], none)
  | attempt, rem + 1 =>
    let pre := [Ev.acquire, Ev.request (endpointFor international) ticker]
    match net attempt with
    | .ok payload => (pre ++ [Ev.release], payload)
    | .badStatus => (pre ++ [Ev.release], none)
    | .httpError code =>
      if code = 429 then
        let rest := fetchInfoFrom ticker international net (attempt + 1) rem
        (pre ++ [Ev.rate429 ticker, Ev.sleep (2 ^ attempt), Ev.release]
             ++ rest.1, rest.2)
      else (pre ++ [Ev.release], none)
    | .urlError => (pre ++ [Ev.release], none)

/-- Function `fetch_info(api_key, ticker, international)` against network oracle
`net`.  The slot is released by the `finally` clause on every exit path; on
the 429 path `_on_429` and the backoff sleep run before that release. -/
def fetch_info (ticker : String) (international : Bool)
    (net : Nat → Attempt) : List Ev × Option Info :=
  fetchInfoFrom ticker international net 0 4

/-- The retry loop of `fetch_isin_fallback`. -/
def fetchIsinFrom (ticker : String) (net : Nat → Attempt) :
    Nat → Nat → List Ev × String
  | _, 0 => ([], "")
  | attempt, rem + 1 =>
    let pre := [Ev.acquire, Ev.request "/securities-information" ticker]
    match net attempt with
    | .ok payload =>
      (pre ++ [Ev.release],
       pyStrip (pyOrStr (payload.getD infoEmpty).isin_number ""))
    | .badStatus => (pre ++ [Ev.release], "")
    | .httpError code =>
      if code = 429 then
        let rest := fetchIsinFrom ticker net (attempt + 1) rem
        (pre ++ [Ev.rate429 ticker, Ev.sleep (2 ^ attempt), Ev.release]
             ++ rest.1, rest.2)
      else (pre ++ [Ev.release], "")
    | .urlError => (pre ++ [Ev.release], "")

/-- Function `fetch_isin_fallback(api_key, ticker)`: ISIN string, `""` if not found
or the call fails. -/
def fetch_isin_fallback (ticker : String) (net : Nat → Attempt) :
    List Ev × String :=
  fetchIsinFrom ticker net 0 4

/-- One CSV row, with the output fieldnames of the script; a missing column
is the empty string. -/
structure Row where
  Ticker : String := ""
  Name : String := ""
  Exchange : String := ""
  Typ : String := ""       -- the CSV "Type" column ("Type" is reserved in Lean)
  Currency : String := ""
  Country : String := ""
  Isin : String := ""
deriving Repr, DecidableEq

inductive Status where
  | enriched | skipped | no_data
deriving Repr, DecidableEq

/-- The tuple returned by `enrich_row`. -/
structure TaskResult where
  row : Row
  status : Status
  unrecognized : List (String × List String)
deriving Repr, DecidableEq

/-- Function `enrich_row(row, api_key, index, total)` with separate network oracles
for the primary endpoint and the `/securities-information` fallback (the
index/total arguments only feed progress printing and are omitted). -/
def enrich_row (row : Row) (primaryNet fallbackNet : Nat → Attempt) :
    List Ev × TaskResult :=
  let ticker := (pyStrip row.Ticker)
  if ticker = "" then ([], ⟨row, .skipped, []⟩)
  else
    let original_exchange := (pyStrip row.Exchange)
    let intl := original_exchange == "FD_INTL"
    let is_otc := original_exchange == "FD_OTC"
    let is_fd_us := original_exchange == "FD_US"
    let api_ticker := ticker
    let ticker := if intl && hasChar ticker '.' then beforeLastDot ticker
                  else ticker
    let fetched := fetch_info api_ticker intl primaryNet
    let pevs := Ev.callPrimary api_ticker :: fetched.1
    match fetched.2 with
    | some info =>
      let ext := extract_isin_and_exchange info intl
      let isin0 := ext.1
      let api_exchange := ext.2
      let fb := if isin0 = "" then
                  let f := fetch_isin_fallback api_ticker fallbackNet
                  (Ev.callFallback api_ticker :: f.1, f.2)
                else ([], isin0)
      let isin := fb.2
      let row := { row with Isin := isin, Ticker := ticker }
      if intl then
        match resolve_intl_exchange api_exchange api_ticker with
        | some (exchange, country, currency) =>
          (pevs ++ fb.1,
           ⟨{ row with Exchange := exchange, Country := country,
                       Currency := currency }, .enriched, []⟩)
        | none =>
          let raw := if api_exchange = "" then "(none)" else api_exchange
          (pevs ++ fb.1, ⟨row, .enriched, [(raw, [ticker])]⟩)
      else
        let api_exchange := (DOMESTIC_EXCHANGE_MAP.lookup api_exchange).getD
                              api_exchange
        let exchange := if api_exchange ≠ "" then api_exchange
                        else if is_otc then "OTCMKTS"
                        else if is_fd_us then "US"
                        else original_exchange
        (pevs ++ fb.1,
         ⟨{ row with Exchange := exchange, Currency := "USD",
                     Country := "USA" }, .enriched, []⟩)
    | none =>
      let row := if is_otc then { row with Exchange := "OTCMKTS" }
                 else if is_fd_us then { row with Exchange := "US" }
                 else row
      let f := fetch_isin_fallback api_ticker fallbackNet
      let row := if f.2 ≠ "" then { row with Isin := f.2 } else row
      let row := { row with Ticker := ticker }
      (pevs ++ Ev.callFallback api_ticker :: f.1, ⟨row, .no_data, []⟩)

/-- The run summary accumulated in `main`: the `enriched` counter, the
combined `skipped` counter (incremented for every non-enriched result and
printed as "No data/skipped"), and `all_unrecognized`. -/
structure Summary where
  enriched : Nat := 0
  skipped : Nat := 0
  all_unrecognized : List (String × List String) := []
deriving Repr, DecidableEq

/-- Python `all_unrecognized.setdefault(exch, []).extend(tickers)`: append
to the list of an existing key, else append a fresh entry (insertion order
kept). -/
def addDiag (m : List (String × List String)) (k : String)
    (v : List String) : List (String × List String) :=
  match m with
  | [] => [(k, v)]
  | (k', v') :: rest =>
    if k' = k then (k', v' ++ v) :: rest else (k', v') :: addDiag rest k v

def mergeUnrecognized (m u : List (String × List String)) :
    List (String × List String) :=
  u.foldl (fun acc kv => addDiag acc kv.1 kv.2) m

/-- The body of the `as_completed` loop of `main` for one completed future. -/
def stepSummary (s : Summary) (r : TaskResult) : Summary :=
  let s := if r.status = .enriched then { s with enriched := s.enriched + 1 }
           else { s with skipped := s.skipped + 1 }
  { s with all_unrecognized := mergeUnrecognized s.all_unrecognized
                                r.unrecognized }

/-- The aggregation loop of `main` over completed futures, in completion order:
writes one output row per result (under `write_lock`) and accumulates the
summary counters. -/
def aggregate (completed : List TaskResult) : List Row × Summary :=
  completed.foldl (fun acc r => (acc.1 ++ [r.row], stepSummary acc.2 r))
    ([], {})

/-- Python `rows = rows[:args.limit]` when `--limit` is given. -/
def truncateRows (rows : List Row) (limit : Option Nat) : List Row :=
  match limit with
  | none => rows
  | some n => rows.take n

/-- The multiset of task results of a run: one `enrich_row` per input row,
with per-row network oracles.  `main` consumes these in an arbitrary
completion order (any permutation of this list). -/
def runResults (rows : List Row) (pnet fnet : Nat → Nat → Attempt) :
    List TaskResult :=
  rows.enum.map (fun p => (enrich_row p.2 (pnet p.1) (fnet p.1)).2)

/-- Count of results with a given status. -/
def countStatus (st : Status) (l : List TaskResult) : Nat :=
  l.countP (fun r => r.status == st)

/-!  The shared `_concurrency` dict and its protocol. -/

/-- The `_concurrency` dict: `max` (current concurrency limit) and `active`
(in-flight count). -/
structure BudgetState where
  max : Int
  active : Int
deriving Repr, DecidableEq

/-- The effect of `_on_429` on `_concurrency["max"]`:
`if max > 1: max -= 1`. -/
def on429 (m : Int) : Int := if 1 < m then m - 1 else m

/-- The map `_on_429` applied `n` times in sequence. -/
def on429Iter : Nat → Int → Int
  | 0, m => m
  | n + 1, m => on429Iter n (on429 m)

/-- Atomic steps on `_concurrency` under `_concurrency_cond`:
  * `acquire`: `_acquire_slot` passes its wait loop only when
    `active < max`, then increments `active`;
  * `release`: `_release_slot` decrements `active`; every release is issued
    from a `finally` paired with an acquire, so `active > 0` when it runs;
  * `report`: `_on_429`, called by a worker currently holding a slot. -/
inductive BudgetStep : BudgetState → BudgetState → Prop where
  | acquire (s : BudgetState) (h : s.active < s.max) :
      BudgetStep s ⟨s.max, s.active + 1⟩
  | release (s : BudgetState) (h : 0 < s.active) :
      BudgetStep s ⟨s.max, s.active - 1⟩
  | report (s : BudgetState) (h : 0 < s.active) :
      BudgetStep s ⟨on429 s.max, s.active⟩

/-- States reachable during a run started with `--workers = workers`
(`_concurrency["max"] = args.workers`, `active = 0`). -/
inductive Reachable (workers : Int) : BudgetState → Prop where
  | init : Reachable workers ⟨workers, 0⟩
  | step {s t : BudgetState} : Reachable workers s → BudgetStep s t →
      Reachable workers t

/-!  Event-trace observations. -/

def isAcquire : Ev → Bool | .acquire => true | _ => false
def isRelease : Ev → Bool | .release => true | _ => false
def isRate429 : Ev → Bool | .rate429 _ => true | _ => false
def isCallFallback : Ev → Bool | .callFallback _ => true | _ => false

def isRequestTo (endpoint : String) : Ev → Bool
  | .request ep _ => ep == endpoint
  | _ => false

/-- The durations of the `time.sleep` calls in a trace, in order. -/
def sleepSecs (l : List Ev) : List Nat :=
  l.filterMap (fun e => match e with | .sleep n => some n | _ => none)

/-- Length of the longest run of leading all-429 outcomes served from
attempt `start`, over `r` attempts. -/
def streak429 (net : Nat → Attempt) (start : Nat) : Nat → Nat
  | 0 => 0
  | r + 1 => if is429 (net start) then streak429 net (start + 1) r + 1 else 0

/-- The events of a single retry-loop iteration serving outcome `a` at loop
index `attempt`: the slot is acquired, the request issued, and — on a 429 —
`_on_429` and the backoff sleep run before the `finally` releases the slot;
every other outcome releases the slot immediately on exit. -/
def attemptBlock (endpoint ticker : String) (attempt : Nat) (a : Attempt) :
    List Ev :=
  if is429 a then
    [Ev.acquire, Ev.request endpoint ticker, Ev.rate429 ticker,
     Ev.sleep (2 ^ attempt), Ev.release]
  else
    [Ev.acquire, Ev.request endpoint ticker, Ev.release]

/-- The decomposition of a retry-loop trace into per-attempt blocks: a new
slot is acquired at the top of each iteration, and the loop continues past
an iteration only on a 429. -/
def loopTrace (endpoint ticker : String) (net : Nat → Attempt) :
    Nat → Nat → List Ev
  | _, 0 => []
  | attempt, rem + 1 =>
    attemptBlock endpoint ticker attempt (net attempt) ++
      (if is429 (net attempt) then
        loopTrace endpoint ticker net (attempt + 1) rem
      else [])

/-!  Concrete fixtures used to instantiate theorems. -/

/-- A network that answers HTTP 429 to every request. -/
def net429 : Nat → Attempt := fun _ => Attempt.httpError 429

/-- A network where every request fails with a transport error. -/
def netErr : Nat → Attempt := fun _ => Attempt.urlError

/-- A network answering a payload with only an ISIN. -/
def netIsin : Nat → Attempt :=
  fun _ => Attempt.ok (some { isin_number := some "US1234567890" })

def shelRow : Row := { Ticker := "SHEL.L", Exchange := "FD_INTL" }

def shelNet : Nat → Attempt :=
  fun _ => Attempt.ok (some { isin_number := some "GB00BP6MXD84",
                              exchange := some "London Stock Exchange" })

def marsRow : Row := { Ticker := "FOO.ZZ", Exchange := "FD_INTL" }

def marsInfo : Info :=
  { isin_number := some "XX123", exchange := some "Mars Exchange" }

def marsNet : Nat → Attempt := fun _ => Attempt.ok (some marsInfo)

def aaaRow : Row := { Ticker := "AAA" }

def zzzRow : Row := { Ticker := "ZZZ", Exchange := "FD_US" }

def blankRow : Row := {}

end EnrichCompanyInfo

namespace EnrichCompanyInfo

/-!  Trace lemmas about the two retry loops. -/

theorem fetchInfoFrom_trace (t : String) (i : Bool) (net : Nat → Attempt) :
    ∀ r a, (fetchInfoFrom t i net a r).1 = loopTrace (endpointFor i) t net a r := by
  intro r
  induction r with
  | zero => intro a; rfl
  | succ r ih =>
    intro a
    simp only [fetchInfoFrom, loopTrace, attemptBlock]
    cases h : net a with
    | ok p => simp [is429]
    | badStatus => simp [is429]
    | httpError code =>
      by_cases hc : code = 429
      · subst hc; simp [is429, ih]
      · simp [is429, hc]
    | urlError => simp [is429]

theorem fetchIsinFrom_trace (t : String) (net : Nat → Attempt) :
    ∀ r a, (fetchIsinFrom t net a r).1 =
      loopTrace "/securities-information" t net a r := by
  intro r
  induction r with
  | zero => intro a; rfl
  | succ r ih =>
    intro a
    simp only [fetchIsinFrom, loopTrace, attemptBlock]
    cases h : net a with
    | ok p => simp [is429]
    | badStatus => simp [is429]
    | httpError code =>
      by_cases hc : code = 429
      · subst hc; simp [is429, ih]
      · simp [is429, hc]
    | urlError => simp [is429]

theorem mem_loopTrace (ep t : String) (net : Nat → Attempt) :
    ∀ r a e, e ∈ loopTrace ep t net a r →
      e = Ev.acquire ∨ e = Ev.release ∨ (∃ s, e = Ev.sleep s) ∨
      e = Ev.rate429 t ∨ e = Ev.request ep t := by
  intro r
  induction r with
  | zero => intro a e he; simp [loopTrace] at he
  | succ r ih =>
    intro a e he
    simp only [loopTrace, List.mem_append] at he
    rcases he with he | he
    · unfold attemptBlock at he
      by_cases h : is429 (net a) = true
      · simp [h] at he
        rcases he with h1 | h1 | h1 | h1 | h1 <;> subst h1 <;> simp
      · simp [h] at he
        rcases he with h1 | h1 | h1 <;> subst h1 <;> simp
    · by_cases h : is429 (net a) = true
      · simp only [h, if_true] at he
        exact ih (a + 1) e he
      · simp [h] at he

theorem countP_loopTrace_acquire_release (ep t : String) (net : Nat → Attempt) :
    ∀ r a, (loopTrace ep t net a r).countP isAcquire =
      (loopTrace ep t net a r).countP isRelease := by
  intro r
  induction r with
  | zero => intro a; rfl
  | succ r ih =>
    intro a
    simp only [loopTrace, List.countP_append]
    unfold attemptBlock
    by_cases h : is429 (net a) = true
    · simp [h, List.countP_cons, isAcquire, isRelease, ih]
    · simp [h, List.countP_cons, isAcquire, isRelease]

theorem sleepSecs_append (l₁ l₂ : List Ev) :
    sleepSecs (l₁ ++ l₂) = sleepSecs l₁ ++ sleepSecs l₂ := by
  simp [sleepSecs, List.filterMap_append]

theorem sleepSecs_loopTrace (ep t : String) (net : Nat → Attempt) :
    ∀ r a, sleepSecs (loopTrace ep t net a r) =
      (List.range (streak429 net a r)).map (fun j => 2 ^ (a + j)) := by
  intro r
  induction r with
  | zero => intro a; rfl
  | succ r ih =>
    intro a
    simp only [loopTrace, streak429]
    unfold attemptBlock
    by_cases h : is429 (net a) = true
    · simp only [h, if_true]
      rw [sleepSecs_append, ih (a + 1), List.range_succ_eq_map]
      simp only [sleepSecs, List.filterMap_cons, List.filterMap_nil,
        List.map_cons, List.map_map]
      rw [List.singleton_append, Nat.add_zero]
      congr 1
      apply List.map_congr_left
      intro j _
      simp only [Function.comp_apply]
      congr 1
      omega
    · simp [h, sleepSecs]

theorem streak429_le (net : Nat → Attempt) : ∀ r a, streak429 net a r ≤ r := by
  intro r
  induction r with
  | zero => intro a; simp [streak429]
  | succ r ih =>
    intro a
    unfold streak429
    by_cases h : is429 (net a) = true
    · simp only [h, if_true]
      exact Nat.succ_le_succ (ih (a + 1))
    · simp [h]

theorem countP_loopTrace_requestTo_ne (ep ep' t : String) (net : Nat → Attempt)
    (hne : ep ≠ ep') : ∀ r a,
    (loopTrace ep t net a r).countP (isRequestTo ep') = 0 := by
  intro r a
  rw [List.countP_eq_zero]
  intro e he
  rcases mem_loopTrace ep t net r a e he with h | h | ⟨s, h⟩ | h | h <;>
    subst h <;> simp [isRequestTo]
  exact hne

theorem countP_loopTrace_callFallback (ep t : String) (net : Nat → Attempt)
    (r a : Nat) : (loopTrace ep t net a r).countP isCallFallback = 0 := by
  rw [List.countP_eq_zero]
  intro e he
  rcases mem_loopTrace ep t net r a e he with h | h | ⟨s, h⟩ | h | h <;>
    subst h <;> simp [isCallFallback]

theorem countP_loopTrace_requestTo_le (ep t : String) (net : Nat → Attempt) :
    ∀ r a, (loopTrace ep t net a r).countP (isRequestTo ep) ≤ r := by
  intro r
  induction r with
  | zero => intro a; simp [loopTrace]
  | succ r ih =>
    intro a
    simp only [loopTrace, List.countP_append]
    unfold attemptBlock
    by_cases h : is429 (net a) = true
    · simp only [h, if_true]
      have := ih (a + 1)
      simp [List.countP_cons, isRequestTo]
      omega
    · simp [h, List.countP_cons, isRequestTo]

theorem loopTrace_net429_requests (ep t : String) :
    ∀ r a, (loopTrace ep t net429 a r).countP (isRequestTo ep) = r := by
  intro r
  induction r with
  | zero => intro a; rfl
  | succ r ih =>
    intro a
    simp only [loopTrace, List.countP_append]
    unfold attemptBlock
    simp [net429, is429, List.countP_cons, isRequestTo, ih]
    omega

theorem loopTrace_net429_rate429 (ep t : String) :
    ∀ r a, (loopTrace ep t net429 a r).countP isRate429 = r := by
  intro r
  induction r with
  | zero => intro a; rfl
  | succ r ih =>
    intro a
    simp only [loopTrace, List.countP_append]
    unfold attemptBlock
    simp [net429, is429, List.countP_cons, isRate429, ih]
    omega

theorem fetchInfoFrom_net429_none (t : String) (i : Bool) :
    ∀ r a, (fetchInfoFrom t i net429 a r).2 = none := by
  intro r
  induction r with
  | zero => intro a; rfl
  | succ r ih =>
    intro a
    simp only [fetchInfoFrom, net429]
    simp [ih]

theorem fetch_info_trace (t : String) (i : Bool) (net : Nat → Attempt) :
    (fetch_info t i net).1 = loopTrace (endpointFor i) t net 0 4 :=
  fetchInfoFrom_trace t i net 4 0

theorem fetch_isin_trace (t : String) (net : Nat → Attempt) :
    (fetch_isin_fallback t net).1 =
      loopTrace "/securities-information" t net 0 4 :=
  fetchIsinFrom_trace t net 4 0

theorem fetch_info_net429_none (t : String) (i : Bool) :
    (fetch_info t i net429).2 = none :=
  fetchInfoFrom_net429_none t i 4 0

theorem securities_ne_endpointFor (i : Bool) :
    endpointFor i ≠ "/securities-information" := by
  cases i <;> decide

/-!  Facts about the effect of `_on_429` on the limit. -/

theorem on429_le (m : Int) : on429 m ≤ m := by
  unfold on429; split <;> omega

theorem on429_ge (m : Int) : m - 1 ≤ on429 m := by
  unfold on429; split <;> omega

theorem on429_pos (m : Int) (h : 1 ≤ m) : 1 ≤ on429 m := by
  unfold on429; split <;> omega

theorem on429Iter_bounds (n : Nat) : ∀ m : Int, 1 ≤ m →
    1 ≤ on429Iter n m ∧ on429Iter n m ≤ m ∧ m - on429Iter n m ≤ (n : Int) := by
  induction n with
  | zero => intro m h; simp only [on429Iter]; omega
  | succ n ih =>
    intro m h
    have h1 := on429_pos m h
    have h2 := on429_le m
    have h3 := on429_ge m
    have h4 := ih (on429 m) h1
    simp only [on429Iter]
    omega

/-!  Branch lemmas for `enrich_row`. -/

theorem enrich_row_blank (row : Row) (p f : Nat → Attempt)
    (h : (pyStrip row.Ticker) = "") :
    enrich_row row p f = ([], ⟨row, .skipped, []⟩) := by
  unfold enrich_row
  rw [if_pos h]

theorem enrich_row_none_shape (row : Row) (p f : Nat → Attempt)
    (hT : ¬ (pyStrip row.Ticker) = "")
    (hN : (fetch_info (pyStrip row.Ticker) ((pyStrip row.Exchange) == "FD_INTL") p).2
            = none) :
    (enrich_row row p f).1 =
      Ev.callPrimary (pyStrip row.Ticker) ::
        ((fetch_info (pyStrip row.Ticker) ((pyStrip row.Exchange) == "FD_INTL") p).1 ++
         Ev.callFallback (pyStrip row.Ticker) ::
         (fetch_isin_fallback (pyStrip row.Ticker) f).1)
    ∧ (enrich_row row p f).2.status = .no_data := by
  unfold enrich_row
  rw [if_neg hT]
  simp only [hN]
  exact ⟨rfl, trivial⟩

theorem enrich_row_some_shape (row : Row) (p f : Nat → Attempt) (info : Info)
    (hT : ¬ (pyStrip row.Ticker) = "")
    (hS : (fetch_info (pyStrip row.Ticker) ((pyStrip row.Exchange) == "FD_INTL") p).2
            = some info) :
    (enrich_row row p f).1 =
      Ev.callPrimary (pyStrip row.Ticker) ::
        ((fetch_info (pyStrip row.Ticker) ((pyStrip row.Exchange) == "FD_INTL") p).1 ++
         (if (extract_isin_and_exchange info
                ((pyStrip row.Exchange) == "FD_INTL")).1 = "" then
            Ev.callFallback (pyStrip row.Ticker) ::
              (fetch_isin_fallback (pyStrip row.Ticker) f).1
          else []))
    ∧ (enrich_row row p f).2.status = .enriched := by
  unfold enrich_row
  rw [if_neg hT]
  simp only [hS]
  refine ⟨?_, ?_⟩ <;>
    (split
     · split
       · split <;> rfl
       · split <;> rfl
     · split <;> rfl)

/-!  Aggregation lemmas for the completion loop of `main`. -/

theorem aggregate_go_length (l : List TaskResult) :
    ∀ acc : List Row × Summary,
      (l.foldl (fun acc r => (acc.1 ++ [r.row], stepSummary acc.2 r)) acc).1.length
        = acc.1.length + l.length := by
  induction l with
  | nil => intro acc; simp
  | cons r l ih =>
    intro acc
    rw [List.foldl_cons, ih]
    simp only [List.length_append, List.length_cons, List.length_nil]
    omega

theorem stepSummary_enriched (s : Summary) (r : TaskResult) :
    (stepSummary s r).enriched =
      s.enriched + (if r.status = .enriched then 1 else 0) := by
  unfold stepSummary
  split <;> simp

theorem stepSummary_skipped (s : Summary) (r : TaskResult) :
    (stepSummary s r).skipped =
      s.skipped + (if r.status = .enriched then 0 else 1) := by
  unfold stepSummary
  split <;> simp

theorem aggregate_go_enriched (l : List TaskResult) :
    ∀ acc : List Row × Summary,
      (l.foldl (fun acc r => (acc.1 ++ [r.row], stepSummary acc.2 r)) acc).2.enriched
        = acc.2.enriched + countStatus .enriched l := by
  induction l with
  | nil => intro acc; simp [countStatus]
  | cons r l ih =>
    intro acc
    rw [List.foldl_cons, ih]
    simp only [stepSummary_enriched, countStatus, List.countP_cons]
    by_cases h : r.status = .enriched
    · simp [h]
      omega
    · simp [h]

theorem aggregate_go_skipped (l : List TaskResult) :
    ∀ acc : List Row × Summary,
      (l.foldl (fun acc r => (acc.1 ++ [r.row], stepSummary acc.2 r)) acc).2.skipped
        = acc.2.skipped + (countStatus .no_data l + countStatus .skipped l) := by
  induction l with
  | nil => intro acc; simp [countStatus]
  | cons r l ih =>
    intro acc
    rw [List.foldl_cons, ih]
    simp only [stepSummary_skipped, countStatus, List.countP_cons]
    cases h : r.status <;> simp [h] <;> omega

theorem aggregate_length (l : List TaskResult) :
    (aggregate l).1.length = l.length := by
  unfold aggregate
  rw [aggregate_go_length]
  simp

theorem aggregate_enriched (l : List TaskResult) :
    (aggregate l).2.enriched = countStatus .enriched l := by
  unfold aggregate
  rw [aggregate_go_enriched]
  simp [Summary.enriched]

theorem aggregate_skipped (l : List TaskResult) :
    (aggregate l).2.skipped =
      countStatus .no_data l + countStatus .skipped l := by
  unfold aggregate
  rw [aggregate_go_skipped]
  simp [Summary.skipped]

theorem runResults_length (rows : List Row) (p f : Nat → Nat → Attempt) :
    (runResults rows p f).length = rows.length := by
  simp [runResults]

/-!  Claim theorems. -/

/-- C1: for every run over an input of N tasks (after any `--limit`
truncation), the output artifact contains exactly one row per input task —
exactly N rows — regardless of the status of each task, and for any completion
order of the futures. -/
theorem C1_output_cardinality (rows : List Row) (limit : Option Nat)
    (pnet fnet : Nat → Nat → Attempt) (completed : List TaskResult)
    (h : completed.Perm (runResults (truncateRows rows limit) pnet fnet)) :
    (aggregate completed).1.length = (truncateRows rows limit).length := by
  rw [aggregate_length, h.length_eq, runResults_length]

theorem C1_witness :
    (aggregate (runResults (truncateRows [shelRow, blankRow, zzzRow] (some 2))
        (fun _ => shelNet) (fun _ => netErr))).1.length
      = (truncateRows [shelRow, blankRow, zzzRow] (some 2)).length :=
  C1_output_cardinality [shelRow, blankRow, zzzRow] (some 2)
    (fun _ => shelNet) (fun _ => netErr) _ (List.Perm.refl _)

/-- C2 (counterexample): with 2 workers, two acquired slots followed by one
`_on_429` report reach the state `max = 1, active = 2`, where
`active ≤ limit` fails — so the claimed invariant `0 ≤ active ≤ limit` does
not hold at every observation point. -/
theorem C2_counterexample :
    Reachable 2 ⟨1, 2⟩ ∧
      ¬ ((⟨1, 2⟩ : BudgetState).active ≤ (⟨1, 2⟩ : BudgetState).max) := by
  constructor
  · have h1 : Reachable 2 ⟨2, 1⟩ :=
      Reachable.step .init (BudgetStep.acquire ⟨2, 0⟩ (by norm_num))
    have h2 : Reachable 2 ⟨2, 2⟩ :=
      Reachable.step h1 (BudgetStep.acquire ⟨2, 1⟩ (by norm_num))
    have h3 : Reachable 2 ⟨on429 2, 2⟩ :=
      Reachable.step h2 (BudgetStep.report ⟨2, 2⟩ (by norm_num))
    have : on429 2 = 1 := by decide
    rwa [this] at h3
  · norm_num

/-- C2 (amended): at every reachable observation point of a run with
`workers ≥ 1`, `0 ≤ active ≤ workers` (the initial limit) and
`1 ≤ limit ≤ workers`; `active ≤ limit` itself can be transiently violated
right after `_on_429` lowers the limit below the current in-flight count. -/
theorem C2_budget_bounds (workers : Int) (s : BudgetState)
    (hW : 1 ≤ workers) (hs : Reachable workers s) :
    0 ≤ s.active ∧ s.active ≤ workers ∧ 1 ≤ s.max ∧ s.max ≤ workers := by
  induction hs with
  | init => refine ⟨?_, ?_, ?_, ?_⟩ <;> dsimp only <;> omega
  | step _ hstep ih =>
    obtain ⟨ih1, ih2, ih3, ih4⟩ := ih
    cases hstep with
    | acquire h => refine ⟨?_, ?_, ?_, ?_⟩ <;> dsimp only <;> omega
    | release h => refine ⟨?_, ?_, ?_, ?_⟩ <;> dsimp only <;> omega
    | report h =>
      refine ⟨ih1, ih2, ?_, ?_⟩ <;> dsimp only
      · exact on429_pos _ ih3
      · exact le_trans (on429_le _) ih4

theorem C2_witness :
    0 ≤ (⟨2, 0⟩ : BudgetState).active
    ∧ (⟨2, 0⟩ : BudgetState).active ≤ 2
    ∧ 1 ≤ (⟨2, 0⟩ : BudgetState).max
    ∧ (⟨2, 0⟩ : BudgetState).max ≤ 2 :=
  C2_budget_bounds 2 ⟨2, 0⟩ (by norm_num) Reachable.init

/-- C3: `limit` never increases under `_on_429` and never drops below 1
(from any start `≥ 1`); a call observing `limit > 1` decrements it by
exactly 1 and a call observing `limit = 1` leaves it unchanged, for any
sequence of calls. -/
theorem C3_limit_monotone (m : Int) (n : Nat) :
    on429 m ≤ m
    ∧ (1 < m → on429 m = m - 1)
    ∧ (m = 1 → on429 m = m)
    ∧ on429Iter n m ≤ m
    ∧ (1 ≤ m → 1 ≤ on429Iter n m) := by
  refine ⟨on429_le m, ?_, ?_, ?_, ?_⟩
  · intro h; unfold on429; rw [if_pos h]
  · intro h; subst h; rfl
  · induction n generalizing m with
    | zero => simp [on429Iter]
    | succ n ih =>
      simp only [on429Iter]
      exact le_trans (ih (on429 m)) (on429_le m)
  · intro h
    exact (on429Iter_bounds n m h).1

theorem C3_witness :
    on429 5 ≤ 5 ∧ on429 5 = 5 - 1 ∧ on429 1 = 1
    ∧ on429Iter 3 5 ≤ 5 ∧ 1 ≤ on429Iter 3 5 :=
  ⟨(C3_limit_monotone 5 3).1, (C3_limit_monotone 5 3).2.1 (by norm_num),
   (C3_limit_monotone 1 3).2.2.1 rfl, (C3_limit_monotone 5 3).2.2.2.1,
   (C3_limit_monotone 5 3).2.2.2.2 (by norm_num)⟩

/-- C4: a task whose every primary attempt gets HTTP 429 issues exactly 4
primary requests, resolves to `no_data`, calls `_on_429` once per attempt
(4 times; applying those decrements to any limit `L ≥ 1` lowers it by at
most 4, never below 1), and invokes the ISIN fallback exactly once. -/
theorem C4_retry_exhaustion (row : Row) (fnet : Nat → Attempt) (L : Int)
    (hT : ¬ (pyStrip row.Ticker) = "") (hL : 1 ≤ L) :
    (enrich_row row net429 fnet).2.status = .no_data
    ∧ (enrich_row row net429 fnet).1.countP
        (isRequestTo (endpointFor ((pyStrip row.Exchange) == "FD_INTL"))) = 4
    ∧ (enrich_row row net429 fnet).1.countP isCallFallback = 1
    ∧ (fetch_info (pyStrip row.Ticker) ((pyStrip row.Exchange) == "FD_INTL")
        net429).1.countP isRate429 = 4
    ∧ 1 ≤ on429Iter 4 L ∧ L - on429Iter 4 L ≤ 4 := by
  have hN := fetch_info_net429_none (pyStrip row.Ticker)
    ((pyStrip row.Exchange) == "FD_INTL")
  obtain ⟨hev, hst⟩ := enrich_row_none_shape row net429 fnet hT hN
  have hb := on429Iter_bounds 4 L hL
  refine ⟨hst, ?_, ?_, ?_, hb.1, ?_⟩
  · rw [hev, fetch_info_trace, fetch_isin_trace]
    simp only [List.countP_cons, List.countP_append,
      loopTrace_net429_requests,
      countP_loopTrace_requestTo_ne "/securities-information"
        (endpointFor ((pyStrip row.Exchange) == "FD_INTL")) (pyStrip row.Ticker) fnet
        (Ne.symm (securities_ne_endpointFor _))]
    simp [isRequestTo]
  · rw [hev, fetch_info_trace, fetch_isin_trace]
    simp only [List.countP_cons, List.countP_append,
      countP_loopTrace_callFallback]
    simp [isCallFallback]
  · rw [fetch_info_trace]
    exact loopTrace_net429_rate429 _ _ 4 0
  · have := hb.2.2; omega

theorem C4_witness :
    (enrich_row aaaRow net429 netIsin).2.status = .no_data
    ∧ (enrich_row aaaRow net429 netIsin).1.countP
        (isRequestTo (endpointFor ((pyStrip aaaRow.Exchange) == "FD_INTL"))) = 4
    ∧ (enrich_row aaaRow net429 netIsin).1.countP isCallFallback = 1
    ∧ (fetch_info (pyStrip aaaRow.Ticker) ((pyStrip aaaRow.Exchange) == "FD_INTL")
        net429).1.countP isRate429 = 4
    ∧ 1 ≤ on429Iter 4 8 ∧ (8 : Int) - on429Iter 4 8 ≤ 4 :=
  C4_retry_exhaustion aaaRow netIsin 8 (by decide) (by norm_num)

/-- C5 (counterexample): on four consecutive 429s the retry loop sleeps
1, 2, 4 and then also 8 seconds — the 8-second sleep happens after the
final (4th) attempt, so the claimed schedule `2^k for k in [0,3)` with no
sleep after the last attempt is wrong. -/
theorem C5_counterexample :
    sleepSecs (fetch_info "AAA" false net429).1 = [1, 2, 4, 8]
    ∧ sleepSecs (fetch_info "AAA" false net429).1 ≠ [1, 2, 4] := by
  constructor <;> decide

/-- C5 (amended): the backoff sleep at rate-limited attempt k (0-indexed)
is exactly `2^k` seconds for k in [0,4): sleeps of 1, 2 and 4 seconds occur
between consecutive rate-limited attempts, and a final sleep of 8 seconds
occurs after the 4th consecutive rate-limited attempt before the loop gives
up.  Formally: the sleeps of a `fetch_info` run are `2^0 .. 2^(c-1)` where
`c ≤ 4` is the number of leading rate-limited attempts. -/
theorem C5_backoff_schedule (t : String) (i : Bool) (net : Nat → Attempt) :
    sleepSecs (fetch_info t i net).1 =
      (List.range (streak429 net 0 4)).map (fun k => 2 ^ k)
    ∧ streak429 net 0 4 ≤ 4 := by
  constructor
  · rw [fetch_info_trace, sleepSecs_loopTrace]
    apply List.map_congr_left
    intro j _
    simp
  · exact streak429_le net 4 0

/-- C6: in both retry loops every `_acquire_slot` is matched by exactly one
`_release_slot` on every exit path and for every network behaviour: the
trace decomposes into per-attempt blocks `[acquire, request, release]`
(non-429 exits) and `[acquire, request, rate429, sleep 2^k, release]`
(429 retries — the release fires only after the backoff sleep, and a fresh
slot is acquired at the top of the next attempt), with equal acquire and
release counts. -/
theorem C6_slot_balance (t : String) (i : Bool) (pnet fnet : Nat → Attempt) :
    (fetch_info t i pnet).1.countP isAcquire =
      (fetch_info t i pnet).1.countP isRelease
    ∧ (fetch_info t i pnet).1 = loopTrace (endpointFor i) t pnet 0 4
    ∧ (fetch_isin_fallback t fnet).1.countP isAcquire =
        (fetch_isin_fallback t fnet).1.countP isRelease
    ∧ (fetch_isin_fallback t fnet).1 =
        loopTrace "/securities-information" t fnet 0 4 := by
  refine ⟨?_, fetch_info_trace t i pnet, ?_, fetch_isin_trace t fnet⟩
  · rw [fetch_info_trace]
    exact countP_loopTrace_acquire_release _ _ _ 4 0
  · rw [fetch_isin_trace]
    exact countP_loopTrace_acquire_release _ _ _ 4 0

/-- C7 (counterexample): a task whose primary fetch fails outright (a
transport error, payload `none`) still invokes the ISIN fallback exactly
once — refuting "queried only when the primary call succeeded but yielded
no usable identifier". -/
theorem C7_counterexample :
    (fetch_info "ZZZ" false netErr).2 = none
    ∧ (enrich_row zzzRow netErr netIsin).1.countP isCallFallback = 1 := by
  constructor <;> decide

/-- C7 (amended): the `/securities-information` fallback is invoked at most
once per task, and exactly once iff the ticker is non-blank and either the
primary call produced no payload or its payload had a blank ISIN; it is an
independent invocation with its own attempt budget (at most 4 requests to
the fallback endpoint), not a retry of the primary call. -/
theorem C7_fallback_policy (row : Row) (pnet fnet : Nat → Attempt) :
    (enrich_row row pnet fnet).1.countP isCallFallback =
      (if pyStrip row.Ticker = "" then 0
       else
        match (fetch_info (pyStrip row.Ticker)
                (pyStrip row.Exchange == "FD_INTL") pnet).2 with
        | none => 1
        | some info =>
          if (extract_isin_and_exchange info
                (pyStrip row.Exchange == "FD_INTL")).1 = "" then 1 else 0)
    ∧ (enrich_row row pnet fnet).1.countP isCallFallback ≤ 1
    ∧ (enrich_row row pnet fnet).1.countP
        (isRequestTo "/securities-information") ≤ 4 := by
  have hprim : ∀ pn : Nat → Attempt,
      (loopTrace (endpointFor (pyStrip row.Exchange == "FD_INTL"))
        (pyStrip row.Ticker) pn 0 4).countP
          (isRequestTo "/securities-information") = 0 :=
    fun pn => countP_loopTrace_requestTo_ne _ _ _ pn
      (securities_ne_endpointFor _) 4 0
  have hfb : (loopTrace "/securities-information" (pyStrip row.Ticker)
      fnet 0 4).countP (isRequestTo "/securities-information") ≤ 4 :=
    countP_loopTrace_requestTo_le _ _ fnet 4 0
  by_cases hT : pyStrip row.Ticker = ""
  · rw [enrich_row_blank row pnet fnet hT, if_pos hT]
    exact ⟨rfl, by simp, by simp⟩
  · rw [if_neg hT]
    cases hI : (fetch_info (pyStrip row.Ticker)
        (pyStrip row.Exchange == "FD_INTL") pnet).2 with
    | none =>
      obtain ⟨hev, _⟩ := enrich_row_none_shape row pnet fnet hT hI
      rw [hev, fetch_info_trace, fetch_isin_trace]
      refine ⟨?_, ?_, ?_⟩
      · simp [List.countP_cons, List.countP_append,
          countP_loopTrace_callFallback, isCallFallback]
      · simp [List.countP_cons, List.countP_append,
          countP_loopTrace_callFallback, isCallFallback]
      · simp only [List.countP_cons, List.countP_append, hprim]
        simp [isRequestTo]
        omega
    | some info =>
      obtain ⟨hev, _⟩ := enrich_row_some_shape row pnet fnet info hT hI
      rw [hev, fetch_info_trace, fetch_isin_trace]
      by_cases hz : (extract_isin_and_exchange info
          (pyStrip row.Exchange == "FD_INTL")).1 = ""
      · refine ⟨?_, ?_, ?_⟩
        · simp [hz, List.countP_cons, List.countP_append,
            countP_loopTrace_callFallback, isCallFallback]
        · simp [hz, List.countP_cons, List.countP_append,
            countP_loopTrace_callFallback, isCallFallback]
        · simp only [hz, if_true, List.countP_cons, List.countP_append,
            hprim]
          simp [isRequestTo]
          omega
      · refine ⟨?_, ?_, ?_⟩
        · simp [hz, List.countP_cons, List.countP_append,
            countP_loopTrace_callFallback, isCallFallback]
        · simp [hz, List.countP_cons, List.countP_append,
            countP_loopTrace_callFallback, isCallFallback]
        · simp only [hz, if_false, List.countP_cons, List.countP_append,
            hprim]
          simp [isRequestTo]

/-- C8: an international-routed task whose primary fetch succeeds but whose
raw exchange value resolves neither by full-name match nor by ticker-suffix
fallback keeps its original `FD_INTL` routing marker in the Exchange field,
finishes `enriched`, and emits a diagnostic mapping the raw exchange value
(`"(none)"` if it was blank) to the output ticker. -/
theorem C8_unresolved_intl (row : Row) (pnet fnet : Nat → Attempt)
    (info : Info)
    (hT : ¬ pyStrip row.Ticker = "")
    (hX : pyStrip row.Exchange = "FD_INTL")
    (hS : (fetch_info (pyStrip row.Ticker) true pnet).2 = some info)
    (hR : resolve_intl_exchange (extract_isin_and_exchange info true).2
            (pyStrip row.Ticker) = none) :
    (enrich_row row pnet fnet).2.row.Exchange = row.Exchange
    ∧ (enrich_row row pnet fnet).2.status = .enriched
    ∧ (enrich_row row pnet fnet).2.unrecognized =
        [((if (extract_isin_and_exchange info true).2 = "" then "(none)"
           else (extract_isin_and_exchange info true).2),
          [if hasChar (pyStrip row.Ticker) '.' then
             beforeLastDot (pyStrip row.Ticker)
           else pyStrip row.Ticker])] := by
  unfold enrich_row
  rw [if_neg hT]
  simp only [hX, beq_self_eq_true, Bool.true_and, if_true]
  simp only [hS, hR]
  by_cases hz : (extract_isin_and_exchange info true).1 = "" <;>
    simp [hz]

theorem C8_witness :
    (enrich_row marsRow marsNet netErr).2.row.Exchange = marsRow.Exchange
    ∧ (enrich_row marsRow marsNet netErr).2.status = .enriched
    ∧ (enrich_row marsRow marsNet netErr).2.unrecognized =
        [((if (extract_isin_and_exchange marsInfo true).2 = "" then "(none)"
           else (extract_isin_and_exchange marsInfo true).2),
          [if hasChar (pyStrip marsRow.Ticker) '.' then
             beforeLastDot (pyStrip marsRow.Ticker)
           else pyStrip marsRow.Ticker])] :=
  C8_unresolved_intl marsRow marsNet netErr marsInfo
    (by decide) (by decide) (by decide) (by decide)

/-- C9 (Scenario A): for `{Ticker: "SHEL.L", Exchange: "FD_INTL"}` with a
primary payload `{isin_number: "GB00BP6MXD84", exchange: "London Stock
Exchange"}`, the result row is `{Ticker: "SHEL", Isin: "GB00BP6MXD84",
Exchange: "LSE", Country: "UK", Currency: "GBP"}` with status `enriched`;
the API request carries the full identifier `"SHEL.L"` (the suffix is
stripped only in the output). -/
theorem C9_scenario_shel :
    (enrich_row shelRow shelNet netErr).2 =
      ⟨{ Ticker := "SHEL", Name := "", Exchange := "LSE", Typ := "",
         Currency := "GBP", Country := "UK", Isin := "GB00BP6MXD84" },
       .enriched, []⟩
    ∧ (enrich_row shelRow shelNet netErr).1 =
      [Ev.callPrimary "SHEL.L", Ev.acquire,
       Ev.request "/international-company-information" "SHEL.L",
       Ev.release] := by
  constructor <;> decide

/-- C10 (counterexample): for a run with one blank-ticker task and one
no-data task, the summary of the code has only a combined "No data/skipped"
counter, which equals 2, while the number of `no_data` results is 1 (and
the number of `skipped` results is 1): the claimed separate no-data count
does not exist and the combined counter matches neither. -/
theorem C10_counterexample :
    (aggregate (runResults [blankRow, zzzRow] (fun _ => netErr)
        (fun _ => netErr))).2
      = { enriched := 0, skipped := 2, all_unrecognized := [] }
    ∧ countStatus .no_data (runResults [blankRow, zzzRow] (fun _ => netErr)
        (fun _ => netErr)) = 1
    ∧ countStatus .skipped (runResults [blankRow, zzzRow] (fun _ => netErr)
        (fun _ => netErr)) = 1
    ∧ (2 : Nat) ≠ 1 := by
  refine ⟨?_, ?_, ?_, ?_⟩ <;> decide

/-- C10 (amended): for every run and completion order, the accumulated
enriched counter equals the number of `enriched` results and its combined
"No data/skipped" counter equals the number of `no_data` results plus the
number of `skipped` results; a blank-identifier task is skipped with no
events at all (in particular no network request). -/
theorem C10_summary_accounting (rows : List Row) (limit : Option Nat)
    (pnet fnet : Nat → Nat → Attempt) (completed : List TaskResult)
    (h : completed.Perm (runResults (truncateRows rows limit) pnet fnet)) :
    (aggregate completed).2.enriched
      = countStatus .enriched (runResults (truncateRows rows limit) pnet fnet)
    ∧ (aggregate completed).2.skipped
      = countStatus .no_data (runResults (truncateRows rows limit) pnet fnet)
        + countStatus .skipped (runResults (truncateRows rows limit) pnet fnet)
    ∧ ∀ (row : Row) (p f : Nat → Attempt), pyStrip row.Ticker = "" →
        enrich_row row p f = ([], ⟨row, .skipped, []⟩) := by
  refine ⟨?_, ?_, fun row p f hb => enrich_row_blank row p f hb⟩
  · rw [aggregate_enriched]
    exact h.countP_eq _
  · rw [aggregate_skipped]
    unfold countStatus
    rw [h.countP_eq _, h.countP_eq _]

theorem C10_witness :
    (aggregate (runResults (truncateRows [blankRow, zzzRow] none)
        (fun _ => netErr) (fun _ => netErr))).2.enriched
      = countStatus .enriched (runResults (truncateRows [blankRow, zzzRow] none)
          (fun _ => netErr) (fun _ => netErr))
    ∧ (aggregate (runResults (truncateRows [blankRow, zzzRow] none)
        (fun _ => netErr) (fun _ => netErr))).2.skipped
      = countStatus .no_data (runResults (truncateRows [blankRow, zzzRow] none)
          (fun _ => netErr) (fun _ => netErr))
        + countStatus .skipped (runResults (truncateRows [blankRow, zzzRow] none)
            (fun _ => netErr) (fun _ => netErr))
    ∧ enrich_row blankRow netErr netErr = ([], ⟨blankRow, .skipped, []⟩) :=
  ⟨(C10_summary_accounting [blankRow, zzzRow] none (fun _ => netErr)
      (fun _ => netErr) _ (List.Perm.refl _)).1,
   (C10_summary_accounting [blankRow, zzzRow] none (fun _ => netErr)
      (fun _ => netErr) _ (List.Perm.refl _)).2.1,
   (C10_summary_accounting [blankRow, zzzRow] none (fun _ => netErr)
      (fun _ => netErr) _ (List.Perm.refl _)).2.2 blankRow netErr netErr
     (by decide)⟩

end EnrichCompanyInfo
